import Mathlib

/-!
Verification of the robust MNI normalization workflow
(`niworkflows/anat/mni.py`): a shallow embedding in Lean 4 of the
masking utility, the settings resolver, the fallback registration
controller and the result validator, together with theorems settling
the specified behavioural claims.

Conventions of the embedding:
* File paths are `String`s; image volumes carry a flat list of voxel
  values (`List Int`) plus opaque affine/header payloads.
* The working directory's file system is an association list from
  paths to volumes; external collaborators (registration engine,
  affine initializer, resampler, dataset getter, preset catalog
  listing) are parameters of the definitions that call them.
* Python exceptions are modelled with `Except` / explicit outcome
  types; the exact arithmetic of the validator is carried out in ℚ.
-/

/-- Least-significant-first decimal digits of `n`, driven by explicit
fuel so that the definition is structurally recursive (mirrors the
digit stream that Python's decimal formatting of a nonnegative int
produces). -/
def digitsRevFuel : Nat → Nat → List Nat
  | 0, _ => []
  | fuel + 1, n => if n = 0 then [] else n % 10 :: digitsRevFuel fuel (n / 10)

/-- Most-significant-first decimal digits of `n`; `0` prints as `[0]`. -/
def decDigits (n : Nat) : List Nat :=
  match n with
  | 0 => [0]
  | _ => (digitsRevFuel n n).reverse

/-- The digit list printed by Python's `'%03d' % n` for `n ≥ 0`:
decimal digits, zero-padded on the left to at least width 3. -/
def pad3 (n : Nat) : List Nat :=
  List.replicate (3 - (decDigits n).length) 0 ++ decDigits n

/-- A decimal digit rendered as its ASCII character. -/
def digitChar (d : Nat) : Char := Char.ofNat (48 + d)

/-- The string produced by Python's `'%d' % n` for a natural `n`. -/
def natStr (n : Nat) : String := ⟨(decDigits n).map digitChar⟩

/-- The string produced by Python's `'%03d' % n` for a natural `n`. -/
def pad3Str (n : Nat) : String := ⟨(pad3 n).map digitChar⟩

/-- Python `str.lower`, for the ASCII modality names used here. -/
def pyLower (s : String) : String := ⟨s.data.map Char.toLower⟩

/-- Python `str.startswith`, over the underlying character lists. -/
def strStartsWith (s pre : String) : Bool := pre.data.isPrefixOf s.data

/-- Python `str.endswith`, over the underlying character lists. -/
def strEndsWith (s suf : String) : Bool := suf.data.reverse.isPrefixOf s.data.reverse

/-- `os.path.join` for the absolute-directory + relative-name uses in
this module. -/
def pathJoin (dir name : String) : String := dir ++ "/" ++ name

/-- `os.path.abspath` of a relative name, resolved against the run's
working directory. -/
def abspath (cwd name : String) : String := pathJoin cwd name

/-- A path is absolute when it starts with the path separator. -/
def isAbsolutePath (p : String) : Bool :=
  match p.data with
  | [] => false
  | c :: _ => c = '/'

/-- An image volume: flat voxel data plus affine and header payloads
(the claims only move the latter around, so their types are opaque
parameters). -/
structure Volume (A H : Type) where
  data : List Int
  affine : A
  header : H
deriving DecidableEq

/-- The working directory's view of the file system. -/
def FileSys (A H : Type) : Type := List (String × Volume A H)

/-- Lookup of a path in the modelled file system. -/
def FileSys.lookup (fs : FileSys A H) (p : String) : Option (Volume A H) :=
  List.lookup p fs

/-- Python-level failures that the orchestration code can raise while
configuring the engine or masking images. -/
inductive PyError where
  | attributeError (name : String)
  | notImplementedError
  | fileNotFound (path : String)
  | shapeMismatch
  | indexError
deriving DecidableEq

/-- The `mask` helper of `mni.py`: load both volumes, zero every voxel
of the input where the mask is zero, write the result under `new_name`
(keeping the input's affine and header) and return the absolute path
of the written file.  Missing files and mismatched voxel grids fault
inside the image library, which is modelled by the error cases. -/
def mask (fs : FileSys A H) (cwd in_file mask_file new_name : String) :
    Except PyError (String × FileSys A H) :=
  match fs.lookup in_file with
  | none => .error (.fileNotFound in_file)
  | some in_nii =>
    match fs.lookup mask_file with
    | none => .error (.fileNotFound mask_file)
    | some mask_nii =>
      if mask_nii.data.length = in_nii.data.length then
        let newData := (in_nii.data.zip mask_nii.data).map
          fun dm => if dm.2 = 0 then 0 else dm.1
        let p := abspath cwd new_name
        .ok (p, (p, ⟨newData, in_nii.affine, in_nii.header⟩) :: fs)
      else .error .shapeMismatch

/-- The caller-facing inputs of `RobustMNINormalizationInputSpec`.
Optional traits are `Option`s (`none` models nipype's `Undefined`);
the enumerations are carried as the strings the code compares and
concatenates. -/
structure NormalizationInputs where
  moving_image : List String
  reference_image : Option (List String)
  moving_mask : Option String
  reference_mask : Option String
  num_threads : Nat
  testing : Bool
  flavor : String
  orientation : String
  reference : String
  moving : String
  template : String
  settings : Option (List String)
  template_resolution : Nat
  explicit_masking : Bool
  initial_moving_transform : Option String
deriving DecidableEq

/-- The mutable `Registration` interface object built by
`_config_ants`: the engine invocation's inputs. -/
structure RegistrationConfig where
  moving_image : List String
  num_threads : Nat
  write_composite_transform : Bool
  initial_moving_transform : Option String
  moving_image_mask : Option String := none
  fixed_image : List String := []
  fixed_image_mask : Option String := none
deriving DecidableEq

/-- Boolean string comparison used to model Python's `sorted` on
file names (lexicographic by character code). -/
def strLe (a b : String) : Bool := decide (a ≤ b)

namespace RobustMNINormalization

/-- `_get_settings`: if the caller supplied a settings list, return it
verbatim; otherwise filter the preset catalog (the listing of the
`niworkflows/data` resource directory) by the computed file-name
prefix and the `.json` extension, sort, and resolve each name to an
absolute path inside `dataDir`. -/
def get_settings (catalog : List String) (dataDir : String)
    (inputs : NormalizationInputs) : List String :=
  match inputs.settings with
  | some s => s
  | none =>
    let filestart0 :=
      pyLower inputs.moving ++ "-mni_registration_" ++ inputs.flavor ++ "_"
    let filestart :=
      if inputs.testing then
        pyLower inputs.moving ++ "-mni_registration_testing_"
      else filestart0
    let filenames := catalog.filter
      fun i => strStartsWith i filestart && strEndsWith i ".json"
    (filenames.mergeSort strLe).map fun f => pathJoin dataDir f

/-- `_get_resolution`: the template resolution actually used, forced
to 2 under the deprecated testing flag. -/
def get_resolution (inputs : NormalizationInputs) : Nat :=
  if inputs.testing then 2 else inputs.template_resolution

/-- `_config_ants`: build the base `Registration` invocation, then
resolve the moving side (pre-masking the first moving image when
`explicit_masking` is set) and the fixed/reference side.  Note that
the source reads the nonexistent trait `mreference_mask` on the
explicitly-masked reference branch, which raises `AttributeError` at
run time. -/
def config_ants (fs : FileSys A H) (cwd : String)
    (get_dataset : String → String) (inputs : NormalizationInputs) :
    Except PyError (RegistrationConfig × FileSys A H) := do
  let base : RegistrationConfig := {
    moving_image := inputs.moving_image
    num_threads := inputs.num_threads
    write_composite_transform := true
    initial_moving_transform := inputs.initial_moving_transform }
  let step1 : Except PyError (RegistrationConfig × FileSys A H) :=
    match inputs.moving_mask with
    | none => .ok (base, fs)
    | some mm =>
      if inputs.explicit_masking then
        match inputs.moving_image with
        | [] => .error .indexError
        | m0 :: _ => do
          let r ← mask fs cwd m0 mm "moving_masked.nii.gz"
          .ok ({ base with moving_image := [r.1] }, r.2)
      else .ok ({ base with moving_image_mask := some mm }, fs)
  let s1 ← step1
  let norm := s1.1
  let fs1 := s1.2
  match inputs.reference_image with
  | some ref =>
    let norm2 := { norm with fixed_image := ref }
    match inputs.reference_mask with
    | some rmask =>
      if inputs.explicit_masking then
        match ref with
        | [] => .error .indexError
        | _ :: _ => .error (.attributeError "mreference_mask")
      else .ok ({ norm2 with fixed_image_mask := some rmask }, fs1)
    | none => .ok (norm2, fs1)
  | none =>
    if inputs.orientation = "LAS" then .error .notImplementedError
    else
      let mni_template := get_dataset inputs.template
      let resolution := get_resolution inputs
      if inputs.explicit_masking then do
        let r ← mask fs1 cwd
          (pathJoin mni_template
            (natStr resolution ++ "mm_" ++ inputs.reference ++ ".nii.gz"))
          (pathJoin mni_template (natStr resolution ++ "mm_brainmask.nii.gz"))
          "fixed_masked.nii.gz"
        .ok ({ norm with fixed_image := [r.1] }, r.2)
      else
        .ok ({ norm with
          fixed_image := [pathJoin mni_template
            (natStr resolution ++ "mm_" ++ inputs.reference ++ ".nii.gz")]
          fixed_image_mask := some
            (pathJoin mni_template
              (natStr resolution ++ "mm_brainmask.nii.gz")) }, fs1)

/-- The target mask the validator compares against: the caller's
reference mask when present, otherwise the brain mask of the resolved
template at the resolution of `_get_resolution`. -/
def validation_target_mask (get_dataset : String → String)
    (inputs : NormalizationInputs) : String :=
  match inputs.reference_mask with
  | some m => m
  | none =>
    pathJoin (get_dataset inputs.template)
      (natStr (get_resolution inputs) ++ "mm_brainmask.nii.gz")

/-- Number of nonzero voxels of a (binarized with `!= 0`) data list. -/
def countNonzero (l : List Int) : Nat := l.countP fun v => decide (v ≠ 0)

/-- Number of voxels at which both volumes are nonzero
(`np.logical_and(...).sum()`). -/
def overlapCount (input target : List Int) : Nat :=
  (input.zip target).countP fun vw => decide (vw.1 ≠ 0) && decide (vw.2 ≠ 0)

/-- The overlap percentage computed by `_validate_results`, in exact
rational arithmetic. -/
def overlap_perc (input target : List Int) : ℚ :=
  (overlapCount input target : ℚ) / (countNonzero input : ℚ) * 100

/-- Outcome of `_validate_results`: acceptance, the `AssertionError`
(whose message interpolates the overlap percentage through `%d`,
i.e. truncated to an integer), or the `ZeroDivisionError` hit when
the resampled moving mask has no nonzero voxel. -/
inductive ValidationOutcome where
  | accepted
  | assertionError (reported : Int)
  | zeroDivisionError
deriving DecidableEq

/-- `_validate_results` on the binarizable voxel data of the resampled
moving mask and of the target mask. -/
def validate_results (input target : List Int) : ValidationOutcome :=
  if countNonzero input = 0 then .zeroDivisionError
  else if overlap_perc input target > 50 then .accepted
  else .assertionError ⌊overlap_perc input target⌋


/-- The default nipype log files that every engine invocation writes
into the working directory. -/
def errfile (cwd : String) : String := pathJoin cwd "stderr.nipype"

/-- The standard-output log companion of `errfile`. -/
def outfile (cwd : String) : String := pathJoin cwd "stdout.nipype"

/-- The per-attempt archive of the error log: the default name
suffixed with `'.%03d' % retry`. -/
def errArchive (cwd : String) (retry : Nat) : String :=
  errfile cwd ++ "." ++ pad3Str retry

/-- The per-attempt archive of the output log. -/
def outArchive (cwd : String) (retry : Nat) : String :=
  outfile cwd ++ "." ++ pad3Str retry

/-- Both archive names written after the attempt with index `retry`. -/
def archiveNames (cwd : String) (retry : Nat) : List String :=
  [errArchive cwd retry, outArchive cwd retry]

/-- Terminal state of `_run_interface`: either the runtime is returned
(return code zero, outputs of the successful attempt collected), or
the validator's assertion fired after a nominal engine success, or
every preset failed and the final `RuntimeError` reports
`self.retry - 1`.  Every state carries the number of engine
invocations performed and the log archives written, in order. -/
inductive RunResult (Out : Type) where
  | returned (returncode : Nat) (retry : Nat) (outputs : Out)
      (invocations : Nat) (archives : List String)
  | validationRejected (returncode : Nat) (retry : Nat) (outputs : Out)
      (invocations : Nat) (archives : List String)
  | exhausted (reportedRetries : Int) (invocations : Nat)
      (archives : List String)

/-- The preset loop of `_run_interface`.  Each element of `outcomes`
is the result of invoking the engine on the corresponding settings
file — `some outs` when `self.norm.run()` returns outputs, `none`
when it raises.  `validator` is `none` when no moving mask was
supplied (the validator is not invoked) and otherwise tells whether
`_validate_results` accepts.  `retry`, `invocations` and `archives`
accumulate the attempt counter, the number of engine invocations and
the archived log names. -/
def runLoop (cwd : String) (validator : Option Bool) :
    List (Option Out) → Nat → Nat → List String → RunResult Out
  | [], retry, inv, arch => .exhausted ((retry : Int) - 1) inv arch
  | none :: rest, retry, inv, arch =>
    runLoop cwd validator rest (retry + 1) (inv + 1) (arch ++ archiveNames cwd retry)
  | some outs :: _, retry, inv, arch =>
    match validator with
    | some false =>
      .validationRejected 0 retry outs (inv + 1) (arch ++ archiveNames cwd retry)
    | _ => .returned 0 retry outs (inv + 1) (arch ++ archiveNames cwd retry)

/-- `_run_interface` run on a list of per-preset engine outcomes,
starting from the freshly constructed interface (attempt counter 0,
no archives yet). -/
def run_interface (cwd : String) (validator : Option Bool)
    (outcomes : List (Option Out)) : RunResult Out :=
  runLoop cwd validator outcomes 0 0 []

/-- Engine invocations performed by a finished run. -/
def RunResult.invocations : RunResult Out → Nat
  | .returned _ _ _ inv _ => inv
  | .validationRejected _ _ _ inv _ => inv
  | .exhausted _ inv _ => inv

/-- Log archives written by a finished run, in order. -/
def RunResult.archives : RunResult Out → List String
  | .returned _ _ _ _ arch => arch
  | .validationRejected _ _ _ _ arch => arch
  | .exhausted _ _ arch => arch

/-- Whether the run returned its runtime normally (as opposed to
raising the validator's assertion or exhausting the presets). -/
def RunResult.returnsNormally : RunResult Out → Bool
  | .returned _ _ _ _ _ => true
  | _ => false

end RobustMNINormalization

/-- A concrete, fully populated request, used to instantiate the
general theorems below at closed inputs. -/
def sampleInputs : NormalizationInputs := {
  moving_image := ["/in/t1.nii.gz", "/in/t1b.nii.gz"]
  reference_image := none
  moving_mask := none
  reference_mask := none
  num_threads := 4
  testing := false
  flavor := "fast"
  orientation := "RAS"
  reference := "T1"
  moving := "T1"
  template := "mni_icbm152_linear"
  settings := none
  template_resolution := 1
  explicit_masking := true
  initial_moving_transform := none }

/-- `sampleInputs` with an explicit reference image and reference
mask (the inputs that hit the `mreference_mask` typo). -/
def sampleRefInputs : NormalizationInputs :=
  { sampleInputs with
    reference_image := some ["/ref/t1.nii.gz"]
    reference_mask := some "/ref/mask.nii.gz" }

/-- `sampleInputs` with a moving mask: a template-based request (no
reference image) with two moving images. -/
def sampleMovingMaskInputs : NormalizationInputs :=
  { sampleInputs with moving_mask := some "/in/mask.nii.gz" }

/-- Appending on the left is cancellable for strings. -/
theorem string_append_cancel_left {a b c : String} (h : a ++ b = a ++ c) : b = c := by
  apply String.ext
  have hd := congrArg String.data h
  rw [String.data_append, String.data_append] at hd
  exact List.append_cancel_left hd

/-- Every digit produced by `digitsRevFuel` is a decimal digit. -/
theorem digitsRevFuel_lt (fuel n d : Nat) (hd : d ∈ digitsRevFuel fuel n) : d < 10 := by
  induction fuel generalizing n with
  | zero => simp [digitsRevFuel] at hd
  | succ fuel ih =>
    by_cases hn : n = 0
    · simp [digitsRevFuel, hn] at hd
    · simp only [digitsRevFuel, if_neg hn, List.mem_cons] at hd
      rcases hd with h | h
      · omega
      · exact ih _ h

/-- `digitsRevFuel` really is the base-10 digit stream: folding it
back with `Nat.ofDigits` recovers the number, given enough fuel. -/
theorem ofDigits_digitsRevFuel (fuel : Nat) :
    ∀ n, n ≤ fuel → Nat.ofDigits 10 (digitsRevFuel fuel n) = n := by
  induction fuel with
  | zero =>
    intro n hn
    interval_cases n
    simp [digitsRevFuel]
  | succ fuel ih =>
    intro n hn
    by_cases hz : n = 0
    · simp [digitsRevFuel, hz]
    · have hdiv : n / 10 ≤ fuel := by omega
      simp only [digitsRevFuel, if_neg hz, Nat.ofDigits_cons, ih _ hdiv]
      omega

/-- `Nat.ofDigits` of a run of zeros is zero. -/
theorem ofDigits_replicate_zero (k : Nat) :
    Nat.ofDigits 10 (List.replicate k (0 : Nat)) = 0 := by
  induction k with
  | zero => simp [Nat.ofDigits]
  | succ k ih => simp [List.replicate, Nat.ofDigits_cons, ih]

/-- Reading the padded digit list of `pad3` back as a (reversed)
numeral recovers the number: the left inverse behind injectivity. -/
theorem ofDigits_pad3 (n : Nat) : Nat.ofDigits 10 (pad3 n).reverse = n := by
  have hdec : Nat.ofDigits 10 (decDigits n).reverse = n := by
    match n with
    | 0 => simp [decDigits, Nat.ofDigits]
    | Nat.succ m =>
      simp only [decDigits, List.reverse_reverse]
      exact ofDigits_digitsRevFuel _ _ le_rfl
  calc Nat.ofDigits 10 (pad3 n).reverse
      = Nat.ofDigits 10 ((decDigits n).reverse ++
          List.replicate (3 - (decDigits n).length) 0) := by
        simp [pad3, List.reverse_append]
    _ = n := by
        rw [Nat.ofDigits_append, ofDigits_replicate_zero, hdec]
        simp

/-- `pad3` is injective. -/
theorem pad3_injective {m n : Nat} (h : pad3 m = pad3 n) : m = n := by
  have := congrArg (fun l => Nat.ofDigits 10 (List.reverse l)) h
  simpa [ofDigits_pad3] using this

/-- Every entry of `pad3 n` is a decimal digit. -/
theorem pad3_lt (n d : Nat) (hd : d ∈ pad3 n) : d < 10 := by
  simp only [pad3, List.mem_append, List.mem_replicate] at hd
  rcases hd with h | h
  · omega
  · match n with
    | 0 => simp [decDigits] at h; omega
    | Nat.succ m =>
      simp only [decDigits, List.mem_reverse] at h
      exact digitsRevFuel_lt _ _ _ h

/-- Decimal digits are recovered from their ASCII characters. -/
theorem digitChar_recover : ∀ d < 10, (digitChar d).toNat - 48 = d := by decide

/-- `pad3Str` is injective: distinct attempt indices print distinct
zero-padded suffixes. -/
theorem pad3Str_injective {m n : Nat} (h : pad3Str m = pad3Str n) : m = n := by
  have hrec : ∀ (k : Nat),
      ((pad3 k).map digitChar).map (fun c => c.toNat - 48) = pad3 k := by
    intro k
    rw [List.map_map]
    have heq : (pad3 k).map ((fun c => c.toNat - 48) ∘ digitChar) = (pad3 k).map id := by
      apply List.map_congr_left
      intro d hdmem
      exact digitChar_recover d (pad3_lt k d hdmem)
    simpa using heq
  have hd : (pad3 m).map digitChar = (pad3 n).map digitChar := congrArg String.data h
  apply pad3_injective
  rw [← hrec m, hd, hrec n]

/-- Character lists extending `"stderr.nipype"` and `"stdout.nipype"`
differ (the two literals differ at index 3). -/
theorem stderr_stdout_data_ne (x y : List Char) :
    "stderr.nipype".data ++ x ≠ "stdout.nipype".data ++ y := by
  intro h
  have e1 : ("stderr.nipype".data ++ x)[3]? = some 'e' := by
    rw [List.getElem?_append_left (by decide)]
    rfl
  rw [h, List.getElem?_append_left (by decide)] at e1
  exact absurd e1 (by decide)

namespace RobustMNINormalization

/-- Distinct attempt indices archive the error log under distinct
names. -/
theorem errArchive_inj {cwd : String} {i j : Nat}
    (h : errArchive cwd i = errArchive cwd j) : i = j := by
  simp only [errArchive] at h
  exact pad3Str_injective (string_append_cancel_left h)

/-- Distinct attempt indices archive the output log under distinct
names. -/
theorem outArchive_inj {cwd : String} {i j : Nat}
    (h : outArchive cwd i = outArchive cwd j) : i = j := by
  simp only [outArchive] at h
  exact pad3Str_injective (string_append_cancel_left h)

/-- An error-log archive never collides with an output-log archive. -/
theorem errArchive_ne_outArchive (cwd : String) (i j : Nat) :
    errArchive cwd i ≠ outArchive cwd j := by
  intro h
  have hd := congrArg String.data h
  simp only [errArchive, outArchive, errfile, outfile, pathJoin,
    String.data_append, List.append_assoc] at hd
  have h1 := List.append_cancel_left hd
  have h2 := List.append_cancel_left h1
  exact stderr_stdout_data_ne _ _ h2

/-- The two archives of one attempt have distinct names. -/
theorem archiveNames_nodup (cwd : String) (i : Nat) :
    (archiveNames cwd i).Nodup := by
  simp [archiveNames, errArchive_ne_outArchive cwd i i]

/-- Archives of distinct attempts are disjoint. -/
theorem archiveNames_disjoint {cwd : String} {i j : Nat} (hij : i ≠ j) :
    List.Disjoint (archiveNames cwd i) (archiveNames cwd j) := by
  intro a hai haj
  simp only [archiveNames, List.mem_cons, List.mem_singleton,
    List.not_mem_nil, or_false] at hai haj
  rcases hai with rfl | rfl <;> rcases haj with h | h
  · exact hij (errArchive_inj h)
  · exact errArchive_ne_outArchive cwd i j h
  · exact errArchive_ne_outArchive cwd j i h.symm
  · exact hij (outArchive_inj h)

/-- The concatenated archives of attempts `0, …, n-1` contain no
repeated name. -/
theorem archives_range_nodup (cwd : String) (n : Nat) :
    ((List.range n).flatMap (archiveNames cwd)).Nodup := by
  rw [List.nodup_flatMap]
  constructor
  · intro i _
    exact archiveNames_nodup cwd i
  · have hlt := List.pairwise_lt_range n
    apply hlt.imp
    intro i j hij
    exact archiveNames_disjoint (Nat.ne_of_lt hij)

end RobustMNINormalization

namespace RobustMNINormalization

/-- Accumulator invariant of the preset loop: some number `n` of
presets is attempted, each attempt bumps the invocation count by one
and appends its two archives, with suffix indices continuing from the
incoming attempt counter. -/
theorem runLoop_stats (cwd : String) (validator : Option Bool) :
    ∀ (outcomes : List (Option Out)) (retry inv : Nat) (arch : List String),
      ∃ n, (runLoop cwd validator outcomes retry inv arch).invocations = inv + n ∧
        (runLoop cwd validator outcomes retry inv arch).archives
          = arch ++ (List.range' retry n).flatMap (archiveNames cwd) := by
  intro outcomes
  induction outcomes with
  | nil =>
    intro retry inv arch
    exact ⟨0, by simp [runLoop, RunResult.invocations, RunResult.archives]⟩
  | cons o rest ih =>
    intro retry inv arch
    match o with
    | none =>
      obtain ⟨n, h1, h2⟩ := ih (retry + 1) (inv + 1) (arch ++ archiveNames cwd retry)
      refine ⟨n + 1, ?_, ?_⟩
      · simp only [runLoop, h1]
        omega
      · simp only [runLoop, h2, List.range'_succ, List.flatMap_cons,
          List.append_assoc]
    | some outs =>
      refine ⟨1, ?_, ?_⟩ <;>
        rcases validator with _ | b
      · simp [runLoop, RunResult.invocations]
      · cases b <;> simp [runLoop, RunResult.invocations]
      · simp [runLoop, RunResult.archives, List.range'_succ]
      · cases b <;> simp [runLoop, RunResult.archives, List.range'_succ]

/-- Unfolding of the loop on `k` failing presets followed by a
success, for a run whose validator (if invoked at all) accepts. -/
theorem runLoop_first_success (cwd : String) (validator : Option Bool)
    (hv : validator ≠ some false) (outs : Out) :
    ∀ (k : Nat) (rest : List (Option Out)) (retry inv : Nat) (arch : List String),
      runLoop cwd validator (List.replicate k none ++ some outs :: rest) retry inv arch =
        .returned 0 (retry + k) outs (inv + k + 1)
          (arch ++ (List.range' retry (k + 1)).flatMap (archiveNames cwd)) := by
  intro k
  induction k with
  | zero =>
    intro rest retry inv arch
    rcases validator with _ | b
    · simp [runLoop, List.range'_succ]
    · cases b
      · exact absurd rfl hv
      · simp [runLoop, List.range'_succ]
  | succ k ih =>
    intro rest retry inv arch
    rw [List.replicate_succ, List.cons_append]
    have hrec := ih rest (retry + 1) (inv + 1) (arch ++ archiveNames cwd retry)
    simp only [runLoop, hrec, List.range'_succ, List.flatMap_cons, List.append_assoc]
    congr 1 <;> omega

/-- Unfolding of the loop when all `N` presets fail. -/
theorem runLoop_all_fail (cwd : String) (validator : Option Bool) :
    ∀ (N retry inv : Nat) (arch : List String),
      runLoop cwd validator (List.replicate N (none : Option Out)) retry inv arch =
        .exhausted ((retry : Int) + N - 1) (inv + N)
          (arch ++ (List.range' retry N).flatMap (archiveNames cwd)) := by
  intro N
  induction N with
  | zero =>
    intro retry inv arch
    simp [runLoop]
  | succ N ih =>
    intro retry inv arch
    rw [List.replicate_succ]
    simp only [runLoop, ih, List.range'_succ, List.flatMap_cons, List.append_assoc]
    congr 1 <;> omega

end RobustMNINormalization

namespace RobustMNINormalization

/-- C1 (amended): in a run whose preset list has `k` engine failures
followed by a success (any further presets may follow), and whose
validator — invoked only when a moving mask was supplied — does not
reject, the controller performs exactly `k + 1` engine invocations,
returns with return code 0 and the successful attempt's outputs
collected, and never attempts the remaining presets (the result does
not depend on `rest`). -/
theorem run_first_success {Out : Type} (cwd : String) (validator : Option Bool)
    (k : Nat) (outs : Out) (rest : List (Option Out))
    (hv : validator ≠ some false) :
    run_interface cwd validator (List.replicate k none ++ some outs :: rest) =
      .returned 0 k outs (k + 1)
        ((List.range (k + 1)).flatMap (archiveNames cwd)) := by
  have h := runLoop_first_success cwd validator hv outs k rest 0 0 []
  simpa [run_interface, List.range_eq_range'] using h

/-- Witness for `run_first_success`: two presets, the first fails and
the second succeeds, no moving mask (validator not invoked). -/
theorem run_first_success_witness :
    ((none : Option Bool) ≠ some false) ∧
      run_interface "/wd" (none : Option Bool)
          (List.replicate 1 none ++ some (7 : Nat) :: [none]) =
        .returned 0 1 7 2 ((List.range 2).flatMap (archiveNames "/wd")) :=
  ⟨by decide, run_first_success "/wd" none 1 7 [none] (by decide)⟩

/-- C1 (counterexample to the claim as stated): when a moving mask is
supplied and the validator rejects, a run whose engine succeeds on its
first preset does not return — the validator's assertion fires — so
the claim's "returns" clause fails on the code. -/
theorem run_rejected_does_not_return :
    RunResult.returnsNormally
      (run_interface "/wd" (some false) [some (7 : Nat)]) = false := rfl

/-- C2: when every one of the `N` presets fails, the loop performs
exactly `N` engine invocations and raises the final `RuntimeError`
reporting `N - 1` retries; no runtime is returned. -/
theorem run_all_fail {Out : Type} (cwd : String) (validator : Option Bool)
    (N : Nat) :
    run_interface cwd validator (List.replicate N (none : Option Out)) =
      .exhausted ((N : Int) - 1) N
        ((List.range N).flatMap (archiveNames cwd)) := by
  have h := @runLoop_all_fail Out cwd validator N 0 0 []
  simpa [run_interface, List.range_eq_range'] using h

/-- C8: in every run the archives written are exactly those of
attempts `0, 1, …, invocations - 1` in order — the error log and the
output log of attempt `i` under the suffix `'.%03d' % i` — and no two
attempts archive under the same name. -/
theorem run_archive_invariant {Out : Type} (cwd : String)
    (validator : Option Bool) (outcomes : List (Option Out)) :
    (run_interface cwd validator outcomes).archives
        = (List.range ((run_interface cwd validator outcomes).invocations)).flatMap
            (archiveNames cwd)
      ∧ ((run_interface cwd validator outcomes).archives).Nodup := by
  obtain ⟨n, h1, h2⟩ := runLoop_stats cwd validator outcomes 0 0 []
  have hn : (run_interface cwd validator outcomes).invocations = n := by
    simpa [run_interface] using h1
  have ha : (run_interface cwd validator outcomes).archives
      = (List.range' 0 n).flatMap (archiveNames cwd) := by
    simpa [run_interface] using h2
  constructor
  · rw [ha, hn, List.range_eq_range']
  · rw [ha]
    simpa [List.range_eq_range'] using archives_range_nodup cwd n

end RobustMNINormalization

/-- Prefixing with an absolute string keeps a path absolute. -/
theorem isAbsolutePath_append (a b : String)
    (h : isAbsolutePath a = true) : isAbsolutePath (a ++ b) = true := by
  have hd : (a ++ b).data = a.data ++ b.data := String.data_append a b
  unfold isAbsolutePath at h ⊢
  rw [hd]
  cases hha : a.data with
  | nil => rw [hha] at h; simp at h
  | cons c t => rw [hha] at h; simpa using h

/-- Joined paths under an absolute directory are absolute. -/
theorem isAbsolutePath_pathJoin (dir name : String)
    (h : isAbsolutePath dir = true) :
    isAbsolutePath (pathJoin dir name) = true := by
  unfold pathJoin
  exact isAbsolutePath_append _ _ (isAbsolutePath_append _ _ h)

namespace RobustMNINormalization

/-- C5: an explicitly provided, non-empty settings list is returned
verbatim; the catalog is universally quantified and absent from the
result, so preset discovery is never consulted. -/
theorem get_settings_override (catalog : List String) (dataDir : String)
    (inputs : NormalizationInputs) (l : List String)
    (h : inputs.settings = some l) (hne : l ≠ []) :
    get_settings catalog dataDir inputs = l := by
  simp [get_settings, h]

/-- Witness for `get_settings_override`. -/
theorem get_settings_override_witness :
    ({ sampleInputs with settings := some ["/my/settings.json"] }
        : NormalizationInputs).settings = some ["/my/settings.json"]
    ∧ ["/my/settings.json"] ≠ ([] : List String)
    ∧ get_settings ["t1-mni_registration_fast_01.json"] "/data"
        { sampleInputs with settings := some ["/my/settings.json"] }
        = ["/my/settings.json"] :=
  ⟨rfl, by decide,
    get_settings_override ["t1-mni_registration_fast_01.json"] "/data"
      { sampleInputs with settings := some ["/my/settings.json"] }
      ["/my/settings.json"] rfl (by decide)⟩

/-- C6: without explicit settings, the resolver returns exactly the
catalog entries that start with the computed prefix (the testing
prefix when the deprecated flag is set) and end in `.json`, joined
onto the data directory, sorted lexicographically; and the result is
a function of the catalog, modality, flavor and testing flag alone. -/
theorem get_settings_discovery (catalog : List String) (dataDir : String)
    (inputs : NormalizationInputs) (h : inputs.settings = none) :
    ∃ names : List String,
      get_settings catalog dataDir inputs
          = names.map (fun f => pathJoin dataDir f)
      ∧ names.Perm (catalog.filter fun f =>
          strStartsWith f
              (if inputs.testing then
                pyLower inputs.moving ++ "-mni_registration_testing_"
              else
                pyLower inputs.moving ++ "-mni_registration_"
                  ++ inputs.flavor ++ "_")
            && strEndsWith f ".json")
      ∧ names.Sorted (· ≤ ·)
      ∧ (∀ p ∈ get_settings catalog dataDir inputs,
          isAbsolutePath dataDir = true → isAbsolutePath p = true)
      ∧ (∀ inputs' : NormalizationInputs, inputs'.settings = none →
          inputs'.moving = inputs.moving → inputs'.flavor = inputs.flavor →
          inputs'.testing = inputs.testing →
          get_settings catalog dataDir inputs'
            = get_settings catalog dataDir inputs) := by
  have htrans : ∀ a b c : String,
      strLe a b = true → strLe b c = true → strLe a c = true := by
    intro a b c h1 h2
    simp only [strLe, decide_eq_true_eq] at h1 h2 ⊢
    exact le_trans h1 h2
  have htotal : ∀ a b : String, (strLe a b || strLe b a) = true := by
    intro a b
    simp only [strLe, Bool.or_eq_true, decide_eq_true_eq]
    exact le_total a b
  refine ⟨(catalog.filter fun f =>
      strStartsWith f
          (if inputs.testing then
            pyLower inputs.moving ++ "-mni_registration_testing_"
          else
            pyLower inputs.moving ++ "-mni_registration_"
              ++ inputs.flavor ++ "_")
        && strEndsWith f ".json").mergeSort strLe, ?_, ?_, ?_, ?_, ?_⟩
  · simp [get_settings, h]
  · exact List.mergeSort_perm _ strLe
  · have hs := List.sorted_mergeSort htrans htotal
      (catalog.filter fun f =>
        strStartsWith f
            (if inputs.testing then
              pyLower inputs.moving ++ "-mni_registration_testing_"
            else
              pyLower inputs.moving ++ "-mni_registration_"
                ++ inputs.flavor ++ "_")
          && strEndsWith f ".json")
    refine hs.imp ?_
    intro a b hab
    simpa [strLe] using hab
  · intro p hp habs
    simp only [get_settings, h, List.mem_map] at hp
    obtain ⟨f, _, rfl⟩ := hp
    exact isAbsolutePath_pathJoin dataDir f habs
  · intro inputs' h' hm hf ht
    simp [get_settings, h, h', hm, hf, ht]

/-- Witness for `get_settings_discovery`. -/
theorem get_settings_discovery_witness :
    (sampleInputs.settings = none)
    ∧ ∃ names : List String,
      get_settings ["t1-mni_registration_fast_01.json", "readme.txt",
          "t1-mni_registration_precise_01.json"] "/data" sampleInputs
          = names.map (fun f => pathJoin "/data" f)
      ∧ names.Perm ((["t1-mni_registration_fast_01.json", "readme.txt",
          "t1-mni_registration_precise_01.json"] : List String).filter fun f =>
          strStartsWith f
              (if sampleInputs.testing then
                pyLower sampleInputs.moving ++ "-mni_registration_testing_"
              else
                pyLower sampleInputs.moving ++ "-mni_registration_"
                  ++ sampleInputs.flavor ++ "_")
            && strEndsWith f ".json")
      ∧ names.Sorted (· ≤ ·)
      ∧ (∀ p ∈ get_settings ["t1-mni_registration_fast_01.json", "readme.txt",
            "t1-mni_registration_precise_01.json"] "/data" sampleInputs,
          isAbsolutePath "/data" = true → isAbsolutePath p = true)
      ∧ (∀ inputs' : NormalizationInputs, inputs'.settings = none →
          inputs'.moving = sampleInputs.moving →
          inputs'.flavor = sampleInputs.flavor →
          inputs'.testing = sampleInputs.testing →
          get_settings ["t1-mni_registration_fast_01.json", "readme.txt",
              "t1-mni_registration_precise_01.json"] "/data" inputs'
            = get_settings ["t1-mni_registration_fast_01.json", "readme.txt",
                "t1-mni_registration_precise_01.json"] "/data" sampleInputs) :=
  ⟨rfl, get_settings_discovery ["t1-mni_registration_fast_01.json", "readme.txt",
      "t1-mni_registration_precise_01.json"] "/data" sampleInputs rfl⟩

end RobustMNINormalization

namespace RobustMNINormalization

/-- C3 (amended): with at least one nonzero voxel in the resampled
moving mask, the validator accepts exactly when the overlap
percentage — overlapping nonzero voxels over the moving mask's
nonzero voxels, times 100 — is strictly greater than 50; otherwise
(including at exactly 50) it raises the assertion, whose message
reports the overlap percentage truncated to an integer. -/
theorem validate_results_spec (input target : List Int)
    (h : countNonzero input ≠ 0) :
    (validate_results input target = .accepted
      ↔ overlap_perc input target > 50)
    ∧ (overlap_perc input target ≤ 50 →
        validate_results input target
          = .assertionError ⌊overlap_perc input target⌋) := by
  unfold validate_results
  rw [if_neg h]
  by_cases hp : overlap_perc input target > 50
  · rw [if_pos hp]
    exact ⟨by simp [hp], fun hle => absurd hp (not_lt.mpr hle)⟩
  · rw [if_neg hp]
    constructor
    · constructor
      · intro hcontra
        exact absurd hcontra (by simp)
      · intro h50
        exact absurd h50 hp
    · intro _
      rfl

/-- Witness for `validate_results_spec`: two nonzero moving-mask
voxels, one of which overlaps the target mask (overlap exactly 50,
which is rejected). -/
theorem validate_results_spec_witness :
    (countNonzero [1, 1] ≠ 0)
    ∧ ((validate_results [1, 1] [1, 0] = .accepted
          ↔ overlap_perc [1, 1] [1, 0] > 50)
        ∧ (overlap_perc [1, 1] [1, 0] ≤ 50 →
            validate_results [1, 1] [1, 0]
              = .assertionError ⌊overlap_perc [1, 1] [1, 0]⌋)) :=
  ⟨by decide, validate_results_spec [1, 1] [1, 0] (by decide)⟩

/-- C3 (counterexample to the claim as stated): at a 1-of-3 overlap
the percentage is 100/3, but the raised assertion reports 33 — the
message's `%d` conversion truncates, so the error does not report the
exact overlap percentage. -/
theorem validate_results_reports_truncated :
    validate_results [1, 1, 1] [1, 0, 0] = .assertionError 33
    ∧ overlap_perc [1, 1, 1] [1, 0, 0] ≠ (33 : ℚ) := by
  have hc : countNonzero [1, 1, 1] = 3 := rfl
  have ho : overlapCount [1, 1, 1] [1, 0, 0] = 1 := rfl
  have hperc : overlap_perc [1, 1, 1] [1, 0, 0] = 100 / 3 := by
    rw [overlap_perc, hc, ho]
    norm_num
  constructor
  · have h0 : ¬ countNonzero [1, 1, 1] = 0 := by rw [hc]; norm_num
    have hnot : ¬ overlap_perc [1, 1, 1] [1, 0, 0] > 50 := by
      rw [hperc]; norm_num
    unfold validate_results
    rw [if_neg h0, if_neg hnot, hperc]
    congr 1
    norm_num
  · rw [hperc]
    norm_num

end RobustMNINormalization

namespace RobustMNINormalization

/-- C9: with the testing flag set, the resolution actually used is 2
— `_get_resolution` returns 2, and both the engine configuration
(template reference image and brain-mask selection) and the
validator's target-mask selection are unchanged by whatever
`template_resolution` the caller supplied. -/
theorem testing_forces_resolution_two (fs : FileSys A H) (cwd : String)
    (get_dataset : String → String) (inputs : NormalizationInputs)
    (r : Nat) (h : inputs.testing = true) :
    get_resolution inputs = 2
    ∧ config_ants fs cwd get_dataset { inputs with template_resolution := r }
        = config_ants fs cwd get_dataset inputs
    ∧ validation_target_mask get_dataset
          { inputs with template_resolution := r }
        = validation_target_mask get_dataset inputs := by
  refine ⟨by simp [get_resolution, h], ?_, ?_⟩
  · simp [config_ants, get_resolution, h]
  · simp [validation_target_mask, get_resolution, h]

/-- Witness for `testing_forces_resolution_two`. -/
theorem testing_forces_resolution_two_witness :
    ({ sampleInputs with testing := true } : NormalizationInputs).testing = true
    ∧ (get_resolution { sampleInputs with testing := true } = 2
      ∧ config_ants ([] : FileSys Unit Unit) "/wd" (fun t => "/ds/" ++ t)
            { { sampleInputs with testing := true } with template_resolution := 1 }
          = config_ants ([] : FileSys Unit Unit) "/wd" (fun t => "/ds/" ++ t)
            { sampleInputs with testing := true }
      ∧ validation_target_mask (fun t => "/ds/" ++ t)
            { { sampleInputs with testing := true } with template_resolution := 1 }
          = validation_target_mask (fun t => "/ds/" ++ t)
            { sampleInputs with testing := true }) :=
  ⟨rfl, testing_forces_resolution_two ([] : FileSys Unit Unit) "/wd"
    (fun t => "/ds/" ++ t) { sampleInputs with testing := true } 1 rfl⟩

/-- C4: on a request carrying both a reference image and a reference
mask with explicit masking enabled, `_config_ants` reads the
nonexistent input trait `mreference_mask` (a typo for
`reference_mask`) and therefore raises `AttributeError` instead of
masking the reference image. -/
theorem config_ants_mreference_mask_attribute_error (fs : FileSys A H)
    (cwd : String) (get_dataset : String → String)
    (inputs : NormalizationInputs) (r0 : String) (refRest : List String)
    (rmask : String)
    (href : inputs.reference_image = some (r0 :: refRest))
    (hrm : inputs.reference_mask = some rmask)
    (hem : inputs.explicit_masking = true)
    (hmm : inputs.moving_mask = none) :
    config_ants fs cwd get_dataset inputs
      = .error (.attributeError "mreference_mask") := by
  simp only [config_ants, href, hrm, hem, hmm, if_true]
  rfl

/-- Witness for `config_ants_mreference_mask_attribute_error`. -/
theorem config_ants_mreference_mask_attribute_error_witness :
    sampleRefInputs.reference_image = some ["/ref/t1.nii.gz"]
    ∧ sampleRefInputs.reference_mask = some "/ref/mask.nii.gz"
    ∧ sampleRefInputs.explicit_masking = true
    ∧ config_ants ([] : FileSys Unit Unit) "/wd" (fun t => "/ds/" ++ t)
        sampleRefInputs = .error (.attributeError "mreference_mask") :=
  ⟨rfl, rfl, rfl,
    config_ants_mreference_mask_attribute_error ([] : FileSys Unit Unit)
      "/wd" (fun t => "/ds/" ++ t) sampleRefInputs
      "/ref/t1.nii.gz" [] "/ref/mask.nii.gz" rfl rfl rfl rfl⟩

end RobustMNINormalization

namespace RobustMNINormalization

/-- Reduction of `Except` bind on a success. -/
theorem except_bind_ok {e a b : Type} (x : a) (f : a → Except e b) :
    (Except.ok x >>= f) = f x := rfl

/-- Reduction of `Except` bind on an error. -/
theorem except_bind_error {e a b : Type} (err : e) (f : a → Except e b) :
    ((Except.error err : Except e a) >>= f) = Except.error err := rfl

/-- A bind in `Except` succeeds exactly through a successful first
step. -/
theorem except_bind_eq_ok {e a b : Type} {m : Except e a}
    {f : a → Except e b} {y : b} (h : (m >>= f) = .ok y) :
    ∃ x, m = .ok x ∧ f x = .ok y := by
  cases m with
  | error err => exact absurd h (by simp [except_bind_error])
  | ok x => exact ⟨x, rfl, by simpa [except_bind_ok] using h⟩

/-- A successful `mask` call returns the absolute path of its output
name. -/
theorem mask_ok_path (fs : FileSys A H) (cwd in_file mask_file new_name : String)
    (r : String × FileSys A H)
    (h : mask fs cwd in_file mask_file new_name = .ok r) :
    r.1 = abspath cwd new_name := by
  unfold mask at h
  split at h
  · exact absurd h (by simp)
  · split at h
    · exact absurd h (by simp)
    · split at h
      · simp only [Except.ok.injEq] at h
        rw [← h]
      · exact absurd h (by simp)

/-- C10: for every request with a moving mask, explicit masking and a
first moving image `m0` — whatever the reference side, the further
moving images and the working directory's contents — whenever
`_config_ants` succeeds, the engine's moving-image input is the
single masked artifact written for `m0`; and the whole configuration
computation equals the one run on `m0` alone, so moving images after
the first are never passed to the engine. -/
theorem explicit_masking_uses_only_first_moving_image (fs : FileSys A H)
    (cwd : String) (get_dataset : String → String)
    (inputs : NormalizationInputs) (m0 mm : String) (rest : List String)
    (hmi : inputs.moving_image = m0 :: rest)
    (hmm : inputs.moving_mask = some mm)
    (hem : inputs.explicit_masking = true) :
    (∀ (cfg : RegistrationConfig) (fs2 : FileSys A H),
        config_ants fs cwd get_dataset inputs = .ok (cfg, fs2) →
        cfg.moving_image = [abspath cwd "moving_masked.nii.gz"])
    ∧ config_ants fs cwd get_dataset inputs
        = config_ants fs cwd get_dataset
            { inputs with moving_image := [m0] } := by
  constructor
  · intro cfg fs2 hok
    simp only [config_ants, hmi, hmm, hem, if_true, ite_true] at hok
    obtain ⟨s1, hs1, hcont⟩ := except_bind_eq_ok hok
    obtain ⟨r, hr, hfr⟩ := except_bind_eq_ok hs1
    have hpath := mask_ok_path fs cwd m0 mm "moving_masked.nii.gz" r hr
    simp only [Except.ok.injEq] at hfr
    rw [← hfr] at hcont
    cases href : inputs.reference_image with
    | some ref =>
      simp only [href] at hcont
      cases hrm : inputs.reference_mask with
      | some rmask =>
        simp only [hrm, hem, if_true, ite_true] at hcont
        cases ref with
        | nil => exact absurd hcont (by simp)
        | cons a as => exact absurd hcont (by simp)
      | none =>
        simp only [hrm, Except.ok.injEq, Prod.mk.injEq] at hcont
        obtain ⟨h1, -⟩ := hcont
        rw [← h1]
        simp [hpath]
    | none =>
      by_cases hlas : inputs.orientation = "LAS"
      · simp only [href, hlas, if_true, ite_true] at hcont
        exact absurd hcont (by simp)
      · simp only [href] at hcont
        rw [if_neg hlas] at hcont
        obtain ⟨r2, hr2, hf2⟩ := except_bind_eq_ok hcont
        simp only [Except.ok.injEq, Prod.mk.injEq] at hf2
        obtain ⟨h1, -⟩ := hf2
        rw [← h1]
        simp [hpath]
  · simp only [config_ants, hmi, hmm, hem]
    rfl

/-- Witness for `explicit_masking_uses_only_first_moving_image`, on a
template-based request (no reference image) with two moving images
and a moving mask, over a file system holding both volumes. -/
theorem explicit_masking_uses_only_first_moving_image_witness :
    sampleMovingMaskInputs.moving_image
        = "/in/t1.nii.gz" :: ["/in/t1b.nii.gz"]
    ∧ sampleMovingMaskInputs.moving_mask = some "/in/mask.nii.gz"
    ∧ sampleMovingMaskInputs.explicit_masking = true
    ∧ ((∀ (cfg : RegistrationConfig) (fs2 : FileSys Unit Unit),
          config_ants
              [("/in/t1.nii.gz", (⟨[5, 7], (), ()⟩ : Volume Unit Unit)),
                ("/in/mask.nii.gz", (⟨[0, 1], (), ()⟩ : Volume Unit Unit))]
              "/wd" (fun t => "/ds/" ++ t) sampleMovingMaskInputs
            = .ok (cfg, fs2) →
          cfg.moving_image = [abspath "/wd" "moving_masked.nii.gz"])
      ∧ config_ants
            [("/in/t1.nii.gz", (⟨[5, 7], (), ()⟩ : Volume Unit Unit)),
              ("/in/mask.nii.gz", (⟨[0, 1], (), ()⟩ : Volume Unit Unit))]
            "/wd" (fun t => "/ds/" ++ t) sampleMovingMaskInputs
          = config_ants
              [("/in/t1.nii.gz", (⟨[5, 7], (), ()⟩ : Volume Unit Unit)),
                ("/in/mask.nii.gz", (⟨[0, 1], (), ()⟩ : Volume Unit Unit))]
              "/wd" (fun t => "/ds/" ++ t)
              { sampleMovingMaskInputs with moving_image := ["/in/t1.nii.gz"] }) :=
  ⟨rfl, rfl, rfl,
    explicit_masking_uses_only_first_moving_image
      [("/in/t1.nii.gz", (⟨[5, 7], (), ()⟩ : Volume Unit Unit)),
        ("/in/mask.nii.gz", (⟨[0, 1], (), ()⟩ : Volume Unit Unit))]
      "/wd" (fun t => "/ds/" ++ t) sampleMovingMaskInputs
      "/in/t1.nii.gz" "/in/mask.nii.gz" ["/in/t1b.nii.gz"] rfl rfl rfl⟩

end RobustMNINormalization

/-- C7: on co-registered volumes, `mask` writes under the absolute
path of `outputName` a volume that is zero wherever the mask is zero
and equal to the input elsewhere, with the input's affine and header,
and returns that absolute path. -/
theorem mask_spec (fs : FileSys A H) (cwd in_file mask_file new_name : String)
    (in_nii mask_nii : Volume A H)
    (hin : fs.lookup in_file = some in_nii)
    (hmk : fs.lookup mask_file = some mask_nii)
    (hlen : mask_nii.data.length = in_nii.data.length)
    (habs : isAbsolutePath cwd = true) :
    ∃ (out : Volume A H) (fs' : FileSys A H),
      mask fs cwd in_file mask_file new_name
          = .ok (abspath cwd new_name, fs')
      ∧ fs'.lookup (abspath cwd new_name) = some out
      ∧ out.data.length = in_nii.data.length
      ∧ (∀ (i : Nat) (h1 : i < in_nii.data.length)
            (h2 : i < mask_nii.data.length) (h3 : i < out.data.length),
          out.data[i] = if mask_nii.data[i] = 0 then 0 else in_nii.data[i])
      ∧ out.affine = in_nii.affine
      ∧ out.header = in_nii.header
      ∧ isAbsolutePath (abspath cwd new_name) = true := by
  refine ⟨⟨(in_nii.data.zip mask_nii.data).map
        (fun dm => if dm.2 = 0 then 0 else dm.1),
      in_nii.affine, in_nii.header⟩,
    (abspath cwd new_name,
      ⟨(in_nii.data.zip mask_nii.data).map
          (fun dm => if dm.2 = 0 then 0 else dm.1),
        in_nii.affine, in_nii.header⟩) :: fs,
    ?_, ?_, ?_, ?_, rfl, rfl, ?_⟩
  · simp only [mask, hin, hmk, hlen, if_true, ite_true]
  · simp [FileSys.lookup, List.lookup]
  · simp [List.length_zip, hlen]
  · intro i h1 h2 h3
    simp [List.getElem_map, List.getElem_zip]
  · unfold abspath
    exact isAbsolutePath_pathJoin cwd new_name habs

/-- Witness for `mask_spec`, on a two-voxel image and mask. -/
theorem mask_spec_witness :
    FileSys.lookup
        [("/in/img.nii.gz", (⟨[5, 7], (), ()⟩ : Volume Unit Unit)),
          ("/in/msk.nii.gz", (⟨[0, 1], (), ()⟩ : Volume Unit Unit))]
        "/in/img.nii.gz" = some ⟨[5, 7], (), ()⟩
    ∧ isAbsolutePath "/wd" = true
    ∧ ∃ (out : Volume Unit Unit) (fs' : FileSys Unit Unit),
      mask [("/in/img.nii.gz", (⟨[5, 7], (), ()⟩ : Volume Unit Unit)),
            ("/in/msk.nii.gz", (⟨[0, 1], (), ()⟩ : Volume Unit Unit))]
          "/wd" "/in/img.nii.gz" "/in/msk.nii.gz" "out.nii.gz"
          = .ok (abspath "/wd" "out.nii.gz", fs')
      ∧ fs'.lookup (abspath "/wd" "out.nii.gz") = some out
      ∧ out.data.length = (([5, 7] : List Int)).length
      ∧ (∀ (i : Nat) (h1 : i < (([5, 7] : List Int)).length)
            (h2 : i < (([0, 1] : List Int)).length)
            (h3 : i < out.data.length),
          out.data[i]
            = if (([0, 1] : List Int))[i] = 0 then 0
              else (([5, 7] : List Int))[i])
      ∧ out.affine = ()
      ∧ out.header = ()
      ∧ isAbsolutePath (abspath "/wd" "out.nii.gz") = true :=
  ⟨rfl, rfl,
    mask_spec [("/in/img.nii.gz", (⟨[5, 7], (), ()⟩ : Volume Unit Unit)),
        ("/in/msk.nii.gz", (⟨[0, 1], (), ()⟩ : Volume Unit Unit))]
      "/wd" "/in/img.nii.gz" "/in/msk.nii.gz" "out.nii.gz"
      ⟨[5, 7], (), ()⟩ ⟨[0, 1], (), ()⟩ rfl rfl rfl rfl⟩
